import Mathlib

/-!
Verification of the handwritten-table extractor (React/TypeScript app).

The development shallowly embeds the two source files:
  * `src/App.tsx` — `fileToBase64`, `convertToCsv`, the `App` component's
    state and its handlers `handleFileChange` / `handleExtractData`;
  * `src/services/geminiService.ts` — module-level configuration
    (`apiKey` / `ai` / `isApiConfigured`) and the two variants of
    `extractDataFromImage` (fixed-schema and dynamic-header), together with
    `src/types.ts` (`TableRow`, `ExtractedData`).

JavaScript objects with string keys are modelled as association lists in
insertion order; `Promise` results, thrown values and the outcome of the
single network call are modelled explicitly so that control flow through
`try`/`catch` becomes a total function.  The platform builtin `JSON.parse`
is a parameter (`parse`, with `parseErrMsg` giving the `SyntaxError`
message a failed parse throws); nothing in the repository inspects the
parser beyond calling it and catching its exception.
-/

namespace Extractor

/-! ## Data model (`src/types.ts`)

`TableRow` is a string-keyed object of string values; key order models the
insertion order that JavaScript `Object.keys` reports. -/

abbrev TableRow := List (String × String)

abbrev ExtractedData := List TableRow

/-- JavaScript property access `row[key]`: the value at the first matching
key, or `none` for `undefined`. -/
def jsIndex : TableRow → String → Option String
  | [], _ => none
  | (k, v) :: rest, key => if k = key then some v else jsIndex rest key

/-- JavaScript `v || dflt` on an optional string: `undefined` and the empty
string are falsy. -/
def jsOr (v : Option String) (dflt : String) : String :=
  match v with
  | none => dflt
  | some s => if s = "" then dflt else s

/-- JavaScript `Object.keys`: the keys in insertion order. -/
def objKeys (row : TableRow) : List String := row.map Prod.fst

/-! ## List-of-characters string operations

`joinChars`/`joinStrings` model JavaScript `Array.prototype.join`, and
`splitOnChar` models `String.prototype.split` with a one-character
separator (`"".split(c) = [""]`, separators at the ends produce empty
fields).  These are also the operations the testable properties about CSV
lines and fields are phrased with. -/

def joinChars (sep : List Char) : List (List Char) → List Char
  | [] => []
  | [x] => x
  | x :: y :: rest => x ++ sep ++ joinChars sep (y :: rest)

/-- JavaScript `parts.join(sep)`. -/
def joinStrings (sep : String) : List String → String
  | [] => ""
  | [x] => x
  | x :: y :: rest => x ++ sep ++ joinStrings sep (y :: rest)

/-- JavaScript `s.split(c)` for a single-character separator `c`. -/
def splitOnChar (c : Char) : List Char → List (List Char)
  | [] => [[]]
  | x :: xs =>
      match splitOnChar c xs with
      | [] => [[]]
      | y :: ys => if x = c then [] :: y :: ys else (x :: y) :: ys

/-! ## CSV serializer (`src/App.tsx`, `convertToCsv`) -/

/-- The character translation of `.replace(/"/g, '""')`: every double-quote
character is doubled, all other characters pass through. -/
def escapeQuotesList : List Char → List Char
  | [] => []
  | c :: cs =>
      if c = '\"' then '\"' :: '\"' :: escapeQuotesList cs
      else c :: escapeQuotesList cs

/-- `s.replace(/"/g, '""')` on strings. -/
def escapeQuotes (s : String) : String := String.mk (escapeQuotesList s.data)

/-- One CSV data cell: the template literal
`` `"${(row[header] || '').replace(/"/g, '""')}"` ``. -/
def csvCell (row : TableRow) (header : String) : String :=
  "\"" ++ escapeQuotes (jsOr (jsIndex row header) "") ++ "\""

/-- `convertToCsv` from `src/App.tsx`.  `none` models the `null` input that
the guard `!data` catches; `data.length === 0` is the empty list. -/
def convertToCsv : Option ExtractedData → String
  | none => ""
  | some [] => ""
  | some (r0 :: rest) =>
      let headers := objKeys r0
      let headerRow := joinStrings "," headers
      let rows := (r0 :: rest).map
        (fun row => joinStrings "," (headers.map (fun h => csvCell row h)))
      joinStrings "\n" (headerRow :: rows)

/-! ## Extraction service (`src/services/geminiService.ts`)

The two source variants differ only in their prompt, in whether a
`responseSchema` is attached to the request config, and in their `catch`
blocks; the prompt and schema are free-text request payload with no effect
on the control flow modelled here, so the embedding keeps the
configuration guard, the single `generateContent` call, `response.text
.trim()`, `JSON.parse`, and the `catch` classification. -/

/-- JSON values, the possible results of the platform `JSON.parse`. -/
inductive Json where
  | null
  | bool (b : Bool)
  | num (n : Int)
  | str (s : String)
  | arr (elems : List Json)
  | obj (fields : List (String × Json))

/-- A JavaScript thrown value as the `catch` blocks see it: an `Error`
carrying a `message`, or any other value (`instanceof Error` fails). -/
inductive JsError where
  | error (message : String)
  | nonError
deriving DecidableEq

/-- Outcome of the one `await ai.models.generateContent(...)` call: either a
response object whose `.text` is a string, or a thrown value. -/
inductive CallOutcome where
  | response (text : String)
  | failure (e : JsError)
deriving DecidableEq

/-- The client handle: `new GoogleGenAI({ apiKey })`. -/
structure GoogleGenAI where
  apiKey : String
deriving DecidableEq

/-- JavaScript truthiness of `process.env.API_KEY`: `undefined` and the
empty string are falsy. -/
def jsTruthyStr : Option String → Bool
  | none => false
  | some s => !(s == "")

/-- Module initialisation: `let ai = null; if (apiKey) ai = new GoogleGenAI({apiKey})`. -/
def initAi (apiKey : Option String) : Option GoogleGenAI :=
  match apiKey with
  | none => none
  | some s => if s == "" then none else some ⟨s⟩

/-- `isApiConfigured`: `!!ai`. -/
def isApiConfigured (ai : Option GoogleGenAI) : Bool := ai.isSome

/-- The message of the error thrown when `ai` is `null` (identical in both
variants). -/
def notConfiguredMessage : String :=
  "Application not configured: API Key is missing. Please ensure the API_KEY environment variable is set for the deployment environment."

/-- The fixed message the dynamic-header variant substitutes for errors
whose message mentions JSON. -/
def malformedResponseMessage : String :=
  "The AI returned data in an unexpected format. This can sometimes happen with complex handwriting. Please try again or use a clearer image."

/-- The wrapper prefix of the generic service-failure rethrow. -/
def serviceFailureMessage (m : String) : String :=
  "Failed to process image with Gemini API: " ++ m

def unknownErrorMessage : String :=
  "An unknown error occurred while processing the image."

/-- `startsWithChars pat l`: `pat` is an initial segment of `l`. -/
def startsWithChars : List Char → List Char → Bool
  | [], _ => true
  | _ :: _, [] => false
  | a :: as, b :: bs => a == b && startsWithChars as bs

def hasSubstrChars (pat : List Char) : List Char → Bool
  | [] => pat.isEmpty
  | c :: cs => startsWithChars pat (c :: cs) || hasSubstrChars pat cs

/-- JavaScript `s.includes(pat)`. -/
def jsIncludes (s pat : String) : Bool := hasSubstrChars pat.data s.data

/-- The `catch` block of the fixed-schema variant (lines 82–88): every
`Error` is wrapped, anything else becomes the unknown-error message. -/
def catchFixed (e : JsError) : Except String Json :=
  match e with
  | .error m => .error (serviceFailureMessage m)
  | .nonError => .error unknownErrorMessage

/-- The `catch` block of the dynamic-header variant (lines 146–155):
`error.message.includes('JSON')` selects the malformed-response message,
other `Error`s are wrapped, anything else becomes the unknown-error
message. -/
def catchDynamic (e : JsError) : Except String Json :=
  match e with
  | .error m =>
      if jsIncludes m "JSON" then .error malformedResponseMessage
      else .error (serviceFailureMessage m)
  | .nonError => .error unknownErrorMessage

/-- Result of one invocation of `extractDataFromImage`: the value returned
or the message of the error thrown, plus how many network calls
(`generateContent` invocations) were made. -/
structure CallResult where
  result : Except String Json
  networkCalls : Nat

/-- The fixed-schema `extractDataFromImage`.  `parse` is the platform
`JSON.parse` returning `none` on a syntax error, and `parseErrMsg s` the
message of the `SyntaxError` it throws on input `s`; `svc` is the outcome
of the network call.  The `return data as ExtractedData` of the source is
a compile-time cast, so the parsed value is returned unchanged. -/
def extractDataFromImageFixed (ai : Option GoogleGenAI)
    (parse : String → Option Json) (parseErrMsg : String → String)
    (svc : CallOutcome) : CallResult :=
  match ai with
  | none => ⟨.error notConfiguredMessage, 0⟩
  | some _ =>
      match svc with
      | .failure e => ⟨catchFixed e, 1⟩
      | .response text =>
          let jsonText := text.trim
          match parse jsonText with
          | some data => ⟨.ok data, 1⟩
          | none => ⟨catchFixed (.error (parseErrMsg jsonText)), 1⟩

/-- The dynamic-header `extractDataFromImage`; identical control flow with
the other `catch` block. -/
def extractDataFromImageDynamic (ai : Option GoogleGenAI)
    (parse : String → Option Json) (parseErrMsg : String → String)
    (svc : CallOutcome) : CallResult :=
  match ai with
  | none => ⟨.error notConfiguredMessage, 0⟩
  | some _ =>
      match svc with
      | .failure e => ⟨catchDynamic e, 1⟩
      | .response text =>
          let jsonText := text.trim
          match parse jsonText with
          | some data => ⟨.ok data, 1⟩
          | none => ⟨catchDynamic (.error (parseErrMsg jsonText)), 1⟩

/-! ## Image encoder (`src/App.tsx`, `fileToBase64`)

`FileReader.readAsDataURL` either fires `onload` with a data-URL string or
`onerror` with a `ProgressEvent`; the promise resolves
`result.split(',')[1]` (which is `undefined` when the string has no
comma — modelled by `Option`) or rejects with the event. -/

/-- The `ProgressEvent` handed to `onerror`; its identity is all the code
uses (it is rejected with, unexamined). -/
structure ProgressEvent where
  id : Nat
deriving DecidableEq

inductive FileReadOutcome where
  | loaded (dataUrl : String)
  | failed (ev : ProgressEvent)
deriving DecidableEq

def fileToBase64 (o : FileReadOutcome) : Except ProgressEvent (Option String) :=
  match o with
  | .failed ev => .error ev
  | .loaded u => .ok (((splitOnChar ',' u.data).get? 1).map String.mk)

/-! ## View controller (`src/App.tsx`, `App`) -/

/-- A selected `File`; the handlers only inspect `.type`. -/
structure JsFile where
  ftype : String
deriving DecidableEq

/-- The handle `URL.createObjectURL(file)` returns, determined by the file
it wraps. -/
structure ObjectUrl where
  file : JsFile
deriving DecidableEq

/-- The `useState` cells of `App`. -/
structure AppState where
  imageFile : Option JsFile
  imageDataUrl : Option ObjectUrl
  extractedData : Option ExtractedData
  isLoading : Bool
  error : Option String
  configError : Option String
deriving DecidableEq

/-- The message the mount-time `useEffect` stores when `isApiConfigured()`
is false. -/
def configErrorMessage : String :=
  "Configuration Error: The API key is not set. This application is non-functional. Please ensure the API_KEY environment variable is configured for deployment."

/-- State after mounting: all cells at their `useState` initial values,
then the `useEffect` (empty dependency list, so run once) possibly setting
`configError`. -/
def initialState (apiConfigured : Bool) : AppState :=
  { imageFile := none
    imageDataUrl := none
    extractedData := none
    isLoading := false
    error := none
    configError := if apiConfigured then none else some configErrorMessage }

def fileTypeErrorMessage : String :=
  "Please select a valid image file (JPG, JPEG, PNG)."

def uploadFirstMessage : String :=
  "Please upload an image first."

def unexpectedErrorMessage : String :=
  "An unexpected error occurred."

/-- The accepted-type test of `handleFileChange`. -/
def validImageType (t : String) : Bool :=
  t == "image/jpeg" || t == "image/jpg" || t == "image/png"

/-- `handleFileChange`: clear `error`, then either accept the first
selected file (storing it, creating a preview URL, resetting
`extractedData`) or reject (validation message, file and preview
cleared). -/
def handleFileChange (s : AppState) (files : List JsFile) : AppState :=
  let s0 : AppState := { s with error := none }
  match files.head? with
  | some f =>
      if validImageType f.ftype then
        { s0 with imageFile := some f, imageDataUrl := some ⟨f⟩, extractedData := none }
      else
        { s0 with error := some fileTypeErrorMessage, imageFile := none, imageDataUrl := none }
  | none =>
      { s0 with error := some fileTypeErrorMessage, imageFile := none, imageDataUrl := none }

/-- `err instanceof Error ? err.message : "An unexpected error occurred."` -/
def jsErrorDisplayMessage (e : JsError) : String :=
  match e with
  | .error m => m
  | .nonError => unexpectedErrorMessage

/-- The state written just before the pipeline is dispatched:
`setIsLoading(true); setError(null); setExtractedData(null)`. -/
def dispatchPrepState (s : AppState) : AppState :=
  { s with isLoading := true, error := none, extractedData := none }

/-- Result of one `handleExtractData` invocation: the final state and the
number of extraction-service calls dispatched. -/
structure ExtractStep where
  state : AppState
  extractionCalls : Nat
deriving DecidableEq

/-- `handleExtractData`.  `enc` is the settled outcome of
`await fileToBase64(imageFile)` and `svc` that of
`await extractDataFromImage(...)` (only consulted when encoding
succeeded); both rejections land in the same `catch`, and the `finally`
clears `isLoading`. -/
def handleExtractData (s : AppState) (enc : Except JsError (Option String))
    (svc : Except JsError ExtractedData) : ExtractStep :=
  if s.configError.isSome then ⟨s, 0⟩
  else
    match s.imageFile with
    | none => ⟨{ s with error := some uploadFirstMessage }, 0⟩
    | some _ =>
        let s1 := dispatchPrepState s
        match enc with
        | .error e =>
            ⟨{ s1 with error := some (jsErrorDisplayMessage e), isLoading := false }, 0⟩
        | .ok _ =>
            match svc with
            | .ok data => ⟨{ s1 with extractedData := some data, isLoading := false }, 1⟩
            | .error e =>
                ⟨{ s1 with error := some (jsErrorDisplayMessage e), isLoading := false }, 1⟩

/-- The user-driven session steps that touch the `App` state. -/
inductive UiAction where
  | fileChange (files : List JsFile)
  | extractData (enc : Except JsError (Option String)) (svc : Except JsError ExtractedData)

def stepUi (s : AppState) (a : UiAction) : AppState × Nat :=
  match a with
  | .fileChange fs => (handleFileChange s fs, 0)
  | .extractData enc svc =>
      let r := handleExtractData s enc svc
      (r.state, r.extractionCalls)

/-- A whole session: fold the actions, accumulating extraction calls. -/
def runUi (s : AppState) : List UiAction → AppState × Nat
  | [] => (s, 0)
  | a :: rest =>
      let r := stepUi s a
      let r2 := runUi r.1 rest
      (r2.1, r.2 + r2.2)

/-- A JSON value that is not an array of string-to-string objects: its rows
have different key sets and one value is a number. -/
def irregularJson : Json :=
  Json.arr [Json.obj [("a", Json.str "1")], Json.obj [("b", Json.num 2)]]

/-- Undo the doubling of double quotes: every `""` pair collapses back to
one `"`.  Used to state that escaping is exactly quote-doubling. -/
def collapseDoubledQuotes : List Char → List Char
  | [] => []
  | '\"' :: '\"' :: rest => '\"' :: collapseDoubledQuotes rest
  | c :: rest => c :: collapseDoubledQuotes rest

/-- The property claim C2 asserts of every nonempty `ExtractedData`: the
first line of the CSV output, split on commas, has as many fields as row 0
has keys, and every later line splits into that same count. -/
abbrev csvLinesFieldProp (r0 : TableRow) (rest : List TableRow) : Prop :=
  (splitOnChar ','
      ((splitOnChar '\n' (convertToCsv (some (r0 :: rest))).data).headD [])).length
    = (objKeys r0).length
  ∧ ∀ l ∈ (splitOnChar '\n' (convertToCsv (some (r0 :: rest))).data).tail,
      (splitOnChar ',' l).length = (objKeys r0).length

/-! ### Splitting/joining lemmas -/

theorem splitOnChar_ne_nil (c : Char) (l : List Char) : splitOnChar c l ≠ [] := by
  cases l with
  | nil => simp [splitOnChar]
  | cons x xs =>
      simp only [splitOnChar]
      cases h : splitOnChar c xs with
      | nil => simp
      | cons y ys =>
          by_cases hx : x = c <;> simp [hx]

/-- A chunk with no separator character splits into itself alone. -/
theorem splitOnChar_of_not_mem {c : Char} {l : List Char} (h : c ∉ l) :
    splitOnChar c l = [l] := by
  induction l with
  | nil => rfl
  | cons x xs ih =>
      have hx : x ≠ c := fun hc => h (hc ▸ List.mem_cons_self x xs)
      have hxs : c ∉ xs := fun hc => h (List.mem_cons_of_mem x hc)
      simp only [splitOnChar, ih hxs]
      simp [hx]

/-- Splitting peels off a separator-free chunk before the first separator. -/
theorem splitOnChar_append_cons {c : Char} {a : List Char} (rest : List Char)
    (h : c ∉ a) : splitOnChar c (a ++ c :: rest) = a :: splitOnChar c rest := by
  induction a with
  | nil =>
      simp only [List.nil_append, splitOnChar]
      cases hr : splitOnChar c rest with
      | nil => exact absurd hr (splitOnChar_ne_nil c rest)
      | cons y ys => simp
  | cons x xs ih =>
      have hx : x ≠ c := fun hc => h (hc ▸ List.mem_cons_self x xs)
      have hxs : c ∉ xs := fun hc => h (List.mem_cons_of_mem x hc)
      simp only [List.cons_append, splitOnChar, List.append_eq]
      rw [ih hxs]
      simp [hx]

/-- Splitting a join on the separator recovers the chunks, provided the
separator occurs in none of them. -/
theorem splitOnChar_joinChars {c : Char} :
    ∀ {ls : List (List Char)}, ls ≠ [] → (∀ l ∈ ls, c ∉ l) →
      splitOnChar c (joinChars [c] ls) = ls
  | [], h, _ => absurd rfl h
  | [x], _, hmem => by
      simpa [joinChars] using splitOnChar_of_not_mem (hmem x (by simp))
  | x :: y :: rest, _, hmem => by
      have hx : c ∉ x := hmem x (by simp)
      have htail : ∀ l ∈ y :: rest, c ∉ l := fun l hl =>
        hmem l (List.mem_cons_of_mem x hl)
      have ih := @splitOnChar_joinChars c (y :: rest) (by simp) htail
      calc splitOnChar c (joinChars [c] (x :: y :: rest))
          = splitOnChar c (x ++ c :: joinChars [c] (y :: rest)) := by
            simp [joinChars]
        _ = x :: splitOnChar c (joinChars [c] (y :: rest)) :=
            splitOnChar_append_cons _ hx
        _ = x :: y :: rest := by rw [ih]

/-- The join of a list ending in a nonempty chunk ends as that chunk
ends. -/
theorem joinChars_getLast?_concat (sep : List Char) (ls : List (List Char))
    (x : List Char) (hx : x ≠ []) :
    (joinChars sep (ls ++ [x])).getLast? = x.getLast? := by
  induction ls with
  | nil => simp [joinChars]
  | cons y ys ih =>
      obtain ⟨a, ha⟩ := Option.isSome_iff_exists.mp (List.getLast?_isSome.mpr hx)
      have hstep : joinChars sep ((y :: ys) ++ [x])
          = y ++ (sep ++ joinChars sep (ys ++ [x])) := by
        cases ys <;> simp [joinChars]
      rw [hstep, List.getLast?_append, List.getLast?_append, ih, ha]
      rfl

/-- `joinStrings` is `joinChars` on the underlying character lists. -/
theorem joinStrings_data (sep : String) :
    ∀ ls : List String, (joinStrings sep ls).data = joinChars sep.data (ls.map String.data)
  | [] => rfl
  | [x] => rfl
  | x :: y :: rest => by
      have ih := joinStrings_data sep (y :: rest)
      simp only [joinStrings, joinChars, List.map_cons, String.data_append]
      rw [ih]
      simp [joinChars]

/-- A character is in the join exactly when it is in the separator or in a
chunk; stated as the `∉` direction used downstream. -/
theorem not_mem_joinChars {c : Char} {sep : List Char} (hsep : c ∉ sep) :
    ∀ {ls : List (List Char)}, (∀ l ∈ ls, c ∉ l) → c ∉ joinChars sep ls
  | [], _ => by simp [joinChars]
  | [x], hmem => by simpa [joinChars] using hmem x (by simp)
  | x :: y :: rest, hmem => by
      have hx : c ∉ x := hmem x (by simp)
      have ih := @not_mem_joinChars c sep hsep (y :: rest)
        (fun l hl => hmem l (List.mem_cons_of_mem x hl))
      simp only [joinChars, List.mem_append]
      push_neg
      exact ⟨⟨hx, hsep⟩, ih⟩

theorem escapeQuotesList_not_mem {c : Char} (hq : c ≠ '\"') :
    ∀ {l : List Char}, c ∉ l → c ∉ escapeQuotesList l
  | [], _ => by simp [escapeQuotesList]
  | x :: xs, h => by
      have hx : c ≠ x := fun hc => h (hc ▸ List.mem_cons_self x xs)
      have ih := escapeQuotesList_not_mem hq (l := xs) (fun hc => h (List.mem_cons_of_mem x hc))
      by_cases hxq : x = '\"' <;> simp [escapeQuotesList, hxq] <;>
        simp_all [eq_comm, hq, hx]

/-- The characters of a serialized cell: an opening quote, the escaped
value, a closing quote. -/
theorem csvCell_data (row : TableRow) (header : String) :
    (csvCell row header).data =
      '\"' :: escapeQuotesList (jsOr (jsIndex row header) "").data ++ ['\"'] := by
  simp [csvCell, escapeQuotes, String.data_append]

/-- No comma and no newline occurs in a cell whose value has neither. -/
theorem csvCell_not_mem {c : Char} (hq : c ≠ '\"') (row : TableRow) (header : String)
    (hv : c ∉ (jsOr (jsIndex row header) "").data) :
    c ∉ (csvCell row header).data := by
  rw [csvCell_data]
  intro hmem
  rcases List.mem_cons.mp hmem with h1 | h2
  · exact hq h1
  rcases List.mem_append.mp h2 with h3 | h4
  · exact escapeQuotesList_not_mem hq hv h3
  · exact hq (List.mem_singleton.mp h4)

/-! ## Claims about the extraction client -/

/-- Claim C3: with the configuration credential absent (`ai = null`), both
variants of `extractDataFromImage` fail immediately with the
`NotConfiguredError` message and dispatch no network call, whatever the
service would have answered. -/
theorem claim_C3_not_configured (parse : String → Option Json)
    (parseErrMsg : String → String) (svc : CallOutcome) :
    extractDataFromImageFixed none parse parseErrMsg svc
        = ⟨.error notConfiguredMessage, 0⟩
    ∧ extractDataFromImageDynamic none parse parseErrMsg svc
        = ⟨.error notConfiguredMessage, 0⟩ :=
  ⟨rfl, rfl⟩

/-- Claim C9: whenever the trimmed response text parses, both variants
return the parsed JSON value unchanged — any value, with no shape
validation whatsoever. -/
theorem claim_C9_parse_passthrough (c : GoogleGenAI)
    (parse : String → Option Json) (parseErrMsg : String → String)
    (text : String) (v : Json) (h : parse text.trim = some v) :
    extractDataFromImageFixed (some c) parse parseErrMsg (.response text)
        = ⟨.ok v, 1⟩
    ∧ extractDataFromImageDynamic (some c) parse parseErrMsg (.response text)
        = ⟨.ok v, 1⟩ := by
  constructor <;>
    simp [extractDataFromImageFixed, extractDataFromImageDynamic, h]

/-- Witness for C9 at a parser returning `irregularJson`: the value comes
back verbatim even though it is not `ExtractedData`-shaped. -/
theorem claim_C9_witness :
    (fun _ : String => some irregularJson) ("x".trim) = some irregularJson
    ∧ extractDataFromImageFixed (some ⟨"k"⟩) (fun _ => some irregularJson)
        (fun _ => "") (.response "x") = ⟨.ok irregularJson, 1⟩ :=
  ⟨rfl,
    (claim_C9_parse_passthrough ⟨"k"⟩ (fun _ => some irregularJson)
      (fun _ => "") "x" irregularJson rfl).1⟩

/-- Claim C1, counterexample to the claim as stated: in the fixed-schema
variant a response that does not parse as JSON is wrapped by the generic
service-failure rethrow, not replaced by the malformed-response message. -/
theorem claim_C1_counterexample :
    (extractDataFromImageFixed (some ⟨"key"⟩) (fun _ => none)
        (fun _ => "Unexpected token N in JSON at position 0")
        (.response "Not JSON")).result
      = .error (serviceFailureMessage "Unexpected token N in JSON at position 0")
    ∧ (extractDataFromImageFixed (some ⟨"key"⟩) (fun _ => none)
        (fun _ => "Unexpected token N in JSON at position 0")
        (.response "Not JSON")).result
      ≠ .error malformedResponseMessage := by
  refine ⟨rfl, fun h => ?_⟩
  have h2 : serviceFailureMessage "Unexpected token N in JSON at position 0"
      = malformedResponseMessage := by injection h
  exact absurd h2 (by decide)

/-- Claim C1 as amended: the dynamic-header variant replaces any caught
`Error` whose message mentions JSON — parse failures in particular — by
the fixed malformed-response message and wraps every other `Error`; the
fixed-schema variant wraps every caught `Error`, parse failures included,
and never produces the malformed-response message. -/
theorem claim_C1_error_classification (c : GoogleGenAI)
    (parse : String → Option Json) (parseErrMsg : String → String)
    (text m : String)
    (hparse : parse text.trim = none)
    (hjson : jsIncludes (parseErrMsg text.trim) "JSON" = true)
    (hm : jsIncludes m "JSON" = false) :
    (extractDataFromImageDynamic (some c) parse parseErrMsg (.response text)).result
        = .error malformedResponseMessage
    ∧ (extractDataFromImageDynamic (some c) parse parseErrMsg
        (.failure (.error m))).result = .error (serviceFailureMessage m)
    ∧ (extractDataFromImageFixed (some c) parse parseErrMsg (.response text)).result
        = .error (serviceFailureMessage (parseErrMsg text.trim))
    ∧ (extractDataFromImageFixed (some c) parse parseErrMsg
        (.failure (.error m))).result = .error (serviceFailureMessage m) := by
  refine ⟨?_, ?_, ?_, ?_⟩ <;>
    simp [extractDataFromImageFixed, extractDataFromImageDynamic,
      catchFixed, catchDynamic, hparse, hjson, hm]

/-- Witness for the amended C1: a concrete unparseable response is turned
into the malformed-response message by the dynamic-header variant. -/
theorem claim_C1_witness :
    jsIncludes "Unexpected token N in JSON at position 0" "JSON" = true
    ∧ (extractDataFromImageDynamic (some ⟨"key"⟩) (fun _ => none)
        (fun _ => "Unexpected token N in JSON at position 0")
        (.response "oops")).result = .error malformedResponseMessage :=
  ⟨by decide,
    (claim_C1_error_classification ⟨"key"⟩ (fun _ => none)
      (fun _ => "Unexpected token N in JSON at position 0") "oops" "network down"
      rfl (by decide) (by decide)).1⟩

/-! ## Claims about the CSV serializer -/

theorem collapseDoubledQuotes_cons_ne {c : Char} (hc : c ≠ '\"') (l : List Char) :
    collapseDoubledQuotes (c :: l) = c :: collapseDoubledQuotes l := by
  rw [collapseDoubledQuotes.eq_def]
  cases l with
  | nil =>
      split
      · simp_all
      · simp_all
      · rename_i c2 rest2 heq
        injection heq with h1 h2
        subst h1
        subst h2
        rfl
  | cons d ds =>
      split
      · simp_all
      · simp_all
      · rename_i c2 rest2 heq
        injection heq with h1 h2
        subst h1
        subst h2
        rfl

theorem collapseDoubledQuotes_escape (l : List Char) :
    collapseDoubledQuotes (escapeQuotesList l) = l := by
  induction l with
  | nil => rfl
  | cons c cs ih =>
      by_cases hc : c = '\"'
      · subst hc
        simp [escapeQuotesList, collapseDoubledQuotes, ih]
      · rw [escapeQuotesList, if_neg hc, collapseDoubledQuotes_cons_ne hc, ih]

theorem count_escapeQuotesList (l : List Char) :
    (escapeQuotesList l).count '\"' = 2 * l.count '\"' := by
  induction l with
  | nil => rfl
  | cons c cs ih =>
      by_cases hc : c = '\"'
      · simp only [escapeQuotesList, hc, if_pos rfl, List.count_cons, ih]
        simp
        omega
      · simp [escapeQuotesList, hc, List.count_cons, ih]

/-- Claim C4: every data cell is the value wrapped in double quotes with
each embedded `"` doubled (doubling is reversible and exactly doubles the
quote count); a key missing from a row serializes as the empty cell
`""`; and the value `4'-7 1/8"` serializes as `"4'-7 1/8"""`. -/
theorem claim_C4_cell_quoting (row : TableRow) (header : String) (l : List Char) :
    (csvCell row header).data
        = '\"' :: escapeQuotesList (jsOr (jsIndex row header) "").data ++ ['\"']
    ∧ collapseDoubledQuotes (escapeQuotesList l) = l
    ∧ (escapeQuotesList l).count '\"' = 2 * l.count '\"'
    ∧ (jsIndex row header = none → csvCell row header = "\"\"")
    ∧ csvCell [("v", "4\x27-7 1/8\"")] "v" = "\"4\x27-7 1/8\"\"\"" := by
  refine ⟨csvCell_data row header, collapseDoubledQuotes_escape l,
    count_escapeQuotesList l, fun hmiss => ?_, by decide⟩
  simp [csvCell, hmiss, jsOr, escapeQuotes, escapeQuotesList]

/-- Witness for C4 at a row that lacks the requested key. -/
theorem claim_C4_witness :
    jsIndex [("a", "1")] "b" = none ∧ csvCell [("a", "1")] "b" = "\"\"" :=
  ⟨by decide, (claim_C4_cell_quoting [("a", "1")] "b" []).2.2.2.1 (by decide)⟩

/-- The last character of a serialized row line is the closing quote of its
last cell, provided there is at least one header. -/
theorem rowLine_data_getLast (row : TableRow) (headers : List String)
    (hne : headers ≠ []) :
    (joinStrings "," (headers.map (fun h => csvCell row h))).data.getLast?
      = some '\"' := by
  rcases (List.eq_nil_or_concat headers).resolve_left hne with ⟨H, hl, rfl⟩
  rw [joinStrings_data, List.concat_eq_append, List.map_append, List.map_append]
  simp only [List.map_cons, List.map_nil]
  rw [joinChars_getLast?_concat]
  · rw [csvCell_data]
    exact List.getLast?_concat _
  · rw [csvCell_data]
    simp

/-- `joinStrings_data` specialised to the comma separator. -/
theorem joinStrings_comma_data (ls : List String) :
    (joinStrings "," ls).data = joinChars [','] (ls.map String.data) :=
  joinStrings_data "," ls

/-- `joinStrings_data` specialised to the newline separator. -/
theorem joinStrings_newline_data (ls : List String) :
    (joinStrings "\n" ls).data = joinChars ['\n'] (ls.map String.data) :=
  joinStrings_data "\n" ls

/-- Claim C5: `toCsv` is empty on `null` and on the empty sequence; on a
nonempty sequence it is the first row's keys (insertion order, not
sorted) joined by commas, followed by one serialized line per row, all
joined by a single newline; with at least one header the output ends in a
closing quote, so no trailing newline is appended. -/
theorem claim_C5_shape (r0 : TableRow) (rest : List TableRow)
    (hne : objKeys r0 ≠ []) :
    convertToCsv none = ""
    ∧ convertToCsv (some []) = ""
    ∧ convertToCsv (some (r0 :: rest))
        = joinStrings "\n" (joinStrings "," (objKeys r0) ::
            (r0 :: rest).map
              (fun row => joinStrings "," ((objKeys r0).map (fun h => csvCell row h))))
    ∧ ((r0 :: rest).map
          (fun row => joinStrings "," ((objKeys r0).map (fun h => csvCell row h)))).length
        = (r0 :: rest).length
    ∧ objKeys [("b", "1"), ("a", "2")] = ["b", "a"]
    ∧ (convertToCsv (some (r0 :: rest))).data.getLast? = some '\"' := by
  refine ⟨rfl, rfl, rfl, by simp, by decide, ?_⟩
  obtain ⟨L, b, hLb⟩ := (List.eq_nil_or_concat
      (((r0 :: rest).map
          (fun row => joinStrings "," ((objKeys r0).map (fun h => csvCell row h)))).map
        String.data)).resolve_left (by simp)
  rw [List.concat_eq_append] at hLb
  have hb : b ∈ ((r0 :: rest).map
      (fun row => joinStrings "," ((objKeys r0).map (fun h => csvCell row h)))).map
        String.data := by
    rw [hLb]; simp
  obtain ⟨line, hline, rfl⟩ := List.mem_map.mp hb
  obtain ⟨srow, _, rfl⟩ := List.mem_map.mp hline
  have hlast := rowLine_data_getLast srow (objKeys r0) hne
  have hbne : (joinStrings "," ((objKeys r0).map (fun h => csvCell srow h))).data ≠ [] := by
    intro h0
    rw [h0] at hlast
    simp at hlast
  rw [show convertToCsv (some (r0 :: rest))
      = joinStrings "\n" (joinStrings "," (objKeys r0) ::
          (r0 :: rest).map
            (fun row => joinStrings "," ((objKeys r0).map (fun h => csvCell row h))))
      from rfl]
  rw [joinStrings_newline_data, List.map_cons, hLb, ← List.cons_append,
    joinChars_getLast?_concat _ _ _ hbne, hlast]

/-- Witness for C5 on a one-row, one-column table. -/
theorem claim_C5_witness :
    objKeys [("a", "1")] ≠ []
    ∧ (convertToCsv (some [[("a", "1")]])).data.getLast? = some '\"' :=
  ⟨by decide, (claim_C5_shape [("a", "1")] [] (by decide)).2.2.2.2.2⟩

/-- Claim C2, counterexample to the claim as stated: a cell value
containing a comma makes its data line split into two fields although
row 0 has a single key — the cells are quoted but a plain comma split
does not respect quotes. -/
theorem claim_C2_counterexample : ¬ csvLinesFieldProp [("a", "x,y")] [] := by
  decide

/-- Claim C2 as amended: the field counts agree provided row 0 has at
least one key and no header key nor any looked-up cell value contains a
comma or a newline character. -/
theorem claim_C2_field_counts (r0 : TableRow) (rest : List TableRow)
    (hne : objKeys r0 ≠ [])
    (hkeys : ∀ h ∈ objKeys r0, ',' ∉ h.data ∧ '\n' ∉ h.data)
    (hvals : ∀ row ∈ r0 :: rest, ∀ h ∈ objKeys r0,
        ',' ∉ (jsOr (jsIndex row h) "").data ∧ '\n' ∉ (jsOr (jsIndex row h) "").data) :
    csvLinesFieldProp r0 rest := by
  have hcell : ∀ row ∈ r0 :: rest, ∀ h ∈ objKeys r0,
      ',' ∉ (csvCell row h).data ∧ '\n' ∉ (csvCell row h).data := fun row hrow h hh =>
    ⟨csvCell_not_mem (by decide) row h (hvals row hrow h hh).1,
     csvCell_not_mem (by decide) row h (hvals row hrow h hh).2⟩
  have hout : (convertToCsv (some (r0 :: rest))).data
      = joinChars ['\n'] ((joinStrings "," (objKeys r0)).data ::
          (r0 :: rest).map
            (fun row => (joinStrings "," ((objKeys r0).map (fun h => csvCell row h))).data)) := by
    rw [show convertToCsv (some (r0 :: rest))
        = joinStrings "\n" (joinStrings "," (objKeys r0) ::
            (r0 :: rest).map
              (fun row => joinStrings "," ((objKeys r0).map (fun h => csvCell row h))))
        from rfl]
    rw [joinStrings_newline_data, List.map_cons, List.map_map]
    rfl
  have hrowline : ∀ row ∈ r0 :: rest,
      splitOnChar ',' (joinStrings "," ((objKeys r0).map (fun h => csvCell row h))).data
        = ((objKeys r0).map (fun h => csvCell row h)).map String.data := by
    intro row hrow
    rw [joinStrings_comma_data]
    refine splitOnChar_joinChars (by simpa using hne) ?_
    intro l hl
    rw [List.map_map] at hl
    obtain ⟨h, hh, rfl⟩ := List.mem_map.mp hl
    exact (hcell row hrow h hh).1
  have hheaderline : splitOnChar ',' (joinStrings "," (objKeys r0)).data
      = (objKeys r0).map String.data := by
    rw [joinStrings_comma_data]
    refine splitOnChar_joinChars (by simpa using hne) ?_
    intro l hl
    obtain ⟨h, hh, rfl⟩ := List.mem_map.mp hl
    exact (hkeys h hh).1
  have hsplit : splitOnChar '\n' (convertToCsv (some (r0 :: rest))).data
      = (joinStrings "," (objKeys r0)).data ::
          (r0 :: rest).map
            (fun row => (joinStrings "," ((objKeys r0).map (fun h => csvCell row h))).data) := by
    rw [hout]
    refine splitOnChar_joinChars (by simp) ?_
    intro l hl
    rcases List.mem_cons.mp hl with h1 | h2
    · subst h1
      rw [joinStrings_comma_data]
      refine not_mem_joinChars (by decide) ?_
      intro l2 hl2
      obtain ⟨h, hh, rfl⟩ := List.mem_map.mp hl2
      exact (hkeys h hh).2
    · obtain ⟨row, hrow, rfl⟩ := List.mem_map.mp h2
      rw [joinStrings_comma_data]
      refine not_mem_joinChars (by decide) ?_
      intro l2 hl2
      rw [List.map_map] at hl2
      obtain ⟨h, hh, rfl⟩ := List.mem_map.mp hl2
      exact (hcell row hrow h hh).2
  constructor
  · rw [hsplit]
    show (splitOnChar ',' (joinStrings "," (objKeys r0)).data).length = _
    rw [hheaderline, List.length_map]
  · intro l hl
    rw [hsplit] at hl
    obtain ⟨row, hrow, rfl⟩ := List.mem_map.mp hl
    rw [hrowline row hrow, List.length_map, List.length_map]

/-- Witness for the amended C2 on a two-row table whose second row lacks a
key (field counts still agree). -/
theorem claim_C2_witness :
    objKeys [("a", "1"), ("b", "2")] ≠ []
    ∧ csvLinesFieldProp [("a", "1"), ("b", "2")] [[("b", "3")]] :=
  ⟨by decide,
    claim_C2_field_counts [("a", "1"), ("b", "2")] [[("b", "3")]]
      (by decide) (by decide) (by decide)⟩

/-! ## Claims about the view controller and the encoder -/

/-- Claim C6: `handleFileChange` accepts exactly the MIME types
`image/jpeg`, `image/jpg` and `image/png`; any other selection sets the
validation message, clears the selected file and its preview, and leaves
`extractedData` untouched; a subsequent valid selection clears the
validation message. -/
theorem claim_C6_file_validation (s : AppState) (f : JsFile) (t : String) :
    (validImageType t = true ↔
        t = "image/jpeg" ∨ t = "image/jpg" ∨ t = "image/png")
    ∧ (validImageType f.ftype = true →
        handleFileChange s [f] =
          { s with error := none, imageFile := some f, imageDataUrl := some ⟨f⟩,
                   extractedData := none })
    ∧ (validImageType f.ftype = false →
        handleFileChange s [f] =
          { s with error := some fileTypeErrorMessage,
                   imageFile := none, imageDataUrl := none })
    ∧ (validImageType f.ftype = false →
        (handleFileChange s [f]).extractedData = s.extractedData)
    ∧ (handleFileChange (handleFileChange s [⟨"text/plain"⟩]) [⟨"image/png"⟩]).error
        = none := by
  refine ⟨?_, fun hv => ?_, fun hv => ?_, fun hv => ?_, ?_⟩
  · simp [validImageType, or_assoc]
  · simp [handleFileChange, hv]
  · simp [handleFileChange, hv]
  · simp [handleFileChange, hv]
  · simp [handleFileChange, validImageType]

/-- Witness for C6: a `text/plain` selection is rejected without touching
`extractedData`, and re-selecting a PNG clears the message. -/
theorem claim_C6_witness :
    validImageType "text/plain" = false
    ∧ (handleFileChange (initialState true) [⟨"text/plain"⟩]).extractedData
        = (initialState true).extractedData :=
  ⟨by decide,
    (claim_C6_file_validation (initialState true) ⟨"text/plain"⟩ "text/plain").2.2.2.1
      (by decide)⟩

/-- One UI step never writes `configError` (no handler calls
`setConfigError`). -/
theorem stepUi_configError (s : AppState) (a : UiAction) :
    (stepUi s a).1.configError = s.configError := by
  cases a with
  | fileChange fs =>
      show (handleFileChange s fs).configError = s.configError
      cases h : fs.head? with
      | none => simp [handleFileChange, h]
      | some f =>
          by_cases hv : validImageType f.ftype <;> simp [handleFileChange, h, hv]
  | extractData enc svc =>
      show (handleExtractData s enc svc).state.configError = s.configError
      by_cases hc : s.configError.isSome
      · simp [handleExtractData, hc]
      · cases hf : s.imageFile with
        | none => simp [handleExtractData, hc, hf]
        | some f =>
            cases enc with
            | error e => simp [handleExtractData, hc, hf, dispatchPrepState]
            | ok b =>
                cases svc <;> simp [handleExtractData, hc, hf, dispatchPrepState]

/-- Claim C7: the configuration handle is a pure function of the
startup-time credential, `configError` is invariant under every sequence
of UI actions, and once present it makes every later `handleExtractData`
invocation a state-preserving no-op that dispatches no extraction call. -/
theorem claim_C7_config_immutable (apiKey : Option String) (s : AppState)
    (acts : List UiAction) (enc : Except JsError (Option String))
    (svc : Except JsError ExtractedData) (hcfg : s.configError.isSome = true) :
    isApiConfigured (initAi apiKey) = jsTruthyStr apiKey
    ∧ (∀ s2 : AppState, ∀ acts2 : List UiAction,
        (runUi s2 acts2).1.configError = s2.configError)
    ∧ handleExtractData s enc svc = ⟨s, 0⟩
    ∧ handleExtractData (runUi s acts).1 enc svc = ⟨(runUi s acts).1, 0⟩ := by
  have hinv : ∀ (acts2 : List UiAction) (s2 : AppState),
      (runUi s2 acts2).1.configError = s2.configError := by
    intro acts2
    induction acts2 with
    | nil => intro s2; rfl
    | cons a rest ih =>
        intro s2
        show (runUi (stepUi s2 a).1 rest).1.configError = s2.configError
        rw [ih, stepUi_configError]
  refine ⟨?_, fun s2 acts2 => hinv acts2 s2, ?_, ?_⟩
  · cases apiKey with
    | none => rfl
    | some k =>
        by_cases hk : k == "" <;> simp [initAi, isApiConfigured, jsTruthyStr, hk]
  · simp [handleExtractData, hcfg]
  · have h2 : (runUi s acts).1.configError.isSome = true := by
      rw [hinv acts s]; exact hcfg
    simp [handleExtractData, h2]

/-- Witness for C7: in a session started without a credential, a
file-selection step does not disturb `configError` and extraction stays a
no-op. -/
theorem claim_C7_witness :
    (initialState (isApiConfigured (initAi none))).configError.isSome = true
    ∧ handleExtractData (initialState (isApiConfigured (initAi none)))
        (.ok (some "aaaa")) (.ok []) = ⟨initialState (isApiConfigured (initAi none)), 0⟩ :=
  ⟨by decide,
    (claim_C7_config_immutable none (initialState (isApiConfigured (initAi none)))
      [] (.ok (some "aaaa")) (.ok []) (by decide)).2.2.1⟩

/-- Claim C10: `handleExtractData` blanks `extractedData` and the error
before dispatching, so any failing invocation — encoding rejection or
service rejection — ends with `extractedData = null` and `error` holding
the failure's display message; a previously shown result is not
restored. -/
theorem claim_C10_failure_resets (s : AppState) (f : JsFile)
    (b64 : Option String) (svc : Except JsError ExtractedData) (e : JsError)
    (hcfg : s.configError = none) (himg : s.imageFile = some f) :
    ((dispatchPrepState s).extractedData = none ∧ (dispatchPrepState s).error = none)
    ∧ (handleExtractData s (.error e) svc).state.extractedData = none
    ∧ (handleExtractData s (.error e) svc).state.error
        = some (jsErrorDisplayMessage e)
    ∧ (handleExtractData s (.ok b64) (.error e)).state.extractedData = none
    ∧ (handleExtractData s (.ok b64) (.error e)).state.error
        = some (jsErrorDisplayMessage e) := by
  refine ⟨⟨rfl, rfl⟩, ?_, ?_, ?_, ?_⟩ <;>
    simp [handleExtractData, hcfg, himg, dispatchPrepState]

/-- Witness for C10: a state showing a previous result loses it when the
service call rejects. -/
theorem claim_C10_witness :
    (handleExtractData
        { imageFile := some ⟨"image/png"⟩, imageDataUrl := none,
          extractedData := some [[("a", "1")]], isLoading := false,
          error := none, configError := none }
        (.ok (some "aaaa")) (.error (.error "boom"))).state.extractedData = none :=
  (claim_C10_failure_resets
    { imageFile := some ⟨"image/png"⟩, imageDataUrl := none,
      extractedData := some [[("a", "1")]], isLoading := false,
      error := none, configError := none }
    ⟨"image/png"⟩ (some "aaaa") (.error (.error "boom")) (.error "boom")
    rfl rfl).2.2.2.1

/-- Claim C8: for a readable file the encoder returns exactly the payload
after the first comma of the data URL (the data-URL prefix and the base64
payload contain no comma), and an unreadable file rejects with the read
error itself. -/
theorem claim_C8_encoder (pre payload : String) (ev : ProgressEvent)
    (hp : ',' ∉ pre.data) (hpay : ',' ∉ payload.data) :
    fileToBase64 (.loaded (pre ++ "," ++ payload)) = .ok (some payload)
    ∧ fileToBase64 (.failed ev) = .error ev := by
  refine ⟨?_, rfl⟩
  show Except.ok (((splitOnChar ',' (pre ++ "," ++ payload).data).get? 1).map String.mk)
      = .ok (some payload)
  have hdata : (pre ++ "," ++ payload).data = pre.data ++ ',' :: payload.data := by
    rw [String.data_append, String.data_append, List.append_assoc]
    rfl
  rw [hdata, splitOnChar_append_cons _ hp, splitOnChar_of_not_mem hpay]
  show Except.ok (some (String.mk payload.data)) = Except.ok (some payload)
  rfl

/-- Witness for C8 on a PNG data URL. -/
theorem claim_C8_witness :
    (',' ∉ ("data:image/png;base64" : String).data)
    ∧ fileToBase64 (.loaded ("data:image/png;base64" ++ "," ++ "iVBORw0KGgo"))
        = .ok (some "iVBORw0KGgo") :=
  ⟨by decide,
    (claim_C8_encoder "data:image/png;base64" "iVBORw0KGgo" ⟨0⟩
      (by decide) (by decide)).1⟩

end Extractor
